import Mathlib

/-!
Verification of the definability/independence core of the Connectives
repository. The Python sources `src/connectives.py`, `src/independence.py`
and `src/independence_z3.py` are shallowly embedded: truth tables are
natural numbers indexed bit-by-bit, the pattern-enumeration catalog is
translated shape by shape, and the Z3-based backend is modelled with the
external solver abstracted as an oracle producing per-depth results.
-/

namespace Connectives

/-- A logical connective, given by its arity and its truth table encoded as an
integer whose bit at position `i` is the output on the input row with binary
encoding `i` (from `src/connectives.py`, class `Connective`; equality compares
arity and table only, as `__eq__` does). -/
structure Connective where
  arity : Nat
  truth_table_int : Nat
deriving DecidableEq, Repr

/-- `Connective.evaluate`: fold the inputs into a row index
(`index = index * 2 + val`) and extract that bit of the table. -/
def Connective.evaluate (c : Connective) (inputs : List Nat) : Nat :=
  (c.truth_table_int >>> (inputs.foldl (fun acc v => acc * 2 + v) 0)) &&& 1

/-- Definability checking mode (from `src/independence.py`). -/
inductive DefinabilityMode where
  | SYNTACTIC
  | TRUTH_FUNCTIONAL
deriving DecidableEq, Repr

/-- The input row with binary encoding `row` for an `arity`-ary connective,
most significant bit first, as built throughout the sources by
`tuple((row >> (arity - 1 - k)) & 1 for k in range(arity))`. -/
def rowInputs (arity row : Nat) : List Nat :=
  (List.range arity).map (fun k => (row >>> (arity - 1 - k)) &&& 1)

/-- The four binary input rows `(x, y)` iterated by the composition helpers. -/
def binRows : List (Nat × Nat) := [(0, 0), (0, 1), (1, 0), (1, 1)]

/-- The eight ternary input rows `(x, y, z)`. -/
def ternRows : List (Nat × Nat × Nat) :=
  [(0, 0, 0), (0, 0, 1), (0, 1, 0), (0, 1, 1),
   (1, 0, 0), (1, 0, 1), (1, 1, 0), (1, 1, 1)]

/-- `_check_permutation_match`: candidate applied on permuted variables
matches the target on every row. -/
def check_permutation_match (target candidate : Connective) (perm : List Nat) : Bool :=
  (List.range (2 ^ target.arity)).all fun row =>
    let target_inputs := rowInputs target.arity row
    let candidate_inputs :=
      (List.range candidate.arity).map (fun k => target_inputs.getD (perm.getD k 0) 0)
    target.evaluate target_inputs == candidate.evaluate candidate_inputs

/-- `_check_with_permutations`: some permutation of variables makes the
candidate match the target. -/
def check_with_permutations (target candidate : Connective) : Bool :=
  if target.arity ≠ candidate.arity then false
  else (List.range target.arity).permutations'.any fun perm =>
    check_permutation_match target candidate perm

/-- `_check_depth_one`: the target matches a same-arity basis function under
some variable permutation. -/
def check_depth_one (target : Connective) (basis : List Connective) : Bool :=
  basis.any fun b => b.arity == target.arity && check_with_permutations target b

/-- `_check_constant_compositions`: nullary target as `u(c)`. -/
def check_constant_compositions (target : Connective) (basis : List Connective)
    (max_depth : Nat) : Bool :=
  let nullary_basis := basis.filter (fun b => b.arity == 0)
  let unary_basis := basis.filter (fun b => b.arity == 1)
  decide (1 ≤ max_depth) &&
    unary_basis.any fun u => nullary_basis.any fun c =>
      u.evaluate [c.truth_table_int] == target.truth_table_int

/-- `_check_unary_compositions`: unary target as `f(x, c)`, `f(c, x)`,
`f(x, x)` at depth 1, `u(v(x))` at depth 2. -/
def check_unary_compositions (target : Connective) (basis : List Connective)
    (max_depth : Nat) : Bool :=
  let unary_basis := basis.filter (fun b => b.arity == 1)
  let binary_basis := basis.filter (fun b => b.arity == 2)
  let nullary_basis := basis.filter (fun b => b.arity == 0)
  (decide (1 ≤ max_depth) &&
    ((binary_basis.any fun f => nullary_basis.any fun c =>
        ([0, 1].all fun x =>
          f.evaluate [x, c.truth_table_int] == target.evaluate [x]) ||
        ([0, 1].all fun x =>
          f.evaluate [c.truth_table_int, x] == target.evaluate [x])) ||
     (binary_basis.any fun f =>
        [0, 1].all fun x => f.evaluate [x, x] == target.evaluate [x]))) ||
  (decide (2 ≤ max_depth) &&
    (unary_basis.any fun u => unary_basis.any fun v =>
      [0, 1].all fun x => u.evaluate [v.evaluate [x]] == target.evaluate [x]))

/-- `_try_composition_f_g_h`: `f(g(x,y), h(x,y))` with `None` children
standing for the projections `x` and `y`. -/
def try_composition_f_g_h (target f : Connective) (g h : Option Connective) : Bool :=
  binRows.all fun xy =>
    let gr : Option Nat :=
      match g with
      | none => some xy.1
      | some gc =>
          if gc.arity == 1 then some (gc.evaluate [xy.1])
          else if gc.arity == 2 then some (gc.evaluate [xy.1, xy.2])
          else none
    let hr : Option Nat :=
      match h with
      | none => some xy.2
      | some hc =>
          if hc.arity == 1 then some (hc.evaluate [xy.2])
          else if hc.arity == 2 then some (hc.evaluate [xy.1, xy.2])
          else none
    match gr, hr with
    | some gv, some hv => f.evaluate [gv, hv] == target.evaluate [xy.1, xy.2]
    | _, _ => false

/-- `_try_unary_binary_composition`: `f(g(x,y))`. -/
def try_unary_binary_composition (target f g : Connective) : Bool :=
  binRows.all fun xy =>
    f.evaluate [g.evaluate [xy.1, xy.2]] == target.evaluate [xy.1, xy.2]

/-- `_try_binary_unary_unary_composition`: `f(g(x), h(y))` with `None`
standing for the identity. -/
def try_binary_unary_unary_composition (target f : Connective)
    (g h : Option Connective) : Bool :=
  binRows.all fun xy =>
    let gr := match g with | none => xy.1 | some gc => gc.evaluate [xy.1]
    let hr := match h with | none => xy.2 | some hc => hc.evaluate [xy.2]
    f.evaluate [gr, hr] == target.evaluate [xy.1, xy.2]

/-- `_try_unary_binary_unary_unary_composition`: `f(g(h(x), i(y)))`. -/
def try_unary_binary_unary_unary_composition (target f g : Connective)
    (h i : Option Connective) : Bool :=
  binRows.all fun xy =>
    let hr := match h with | none => xy.1 | some hc => hc.evaluate [xy.1]
    let ir := match i with | none => xy.2 | some ic => ic.evaluate [xy.2]
    f.evaluate [g.evaluate [hr, ir]] == target.evaluate [xy.1, xy.2]

/-- `_try_binary_const_binary`: `f(c, g(x,y))` or `f(g(x,y), c)`. -/
def try_binary_const_binary (target f : Connective) (const_val : Nat)
    (g : Option Connective) (left_const : Bool) : Bool :=
  binRows.all fun xy =>
    let gr := match g with | none => xy.1 | some gc => gc.evaluate [xy.1, xy.2]
    let fr := if left_const then f.evaluate [const_val, gr]
              else f.evaluate [gr, const_val]
    fr == target.evaluate [xy.1, xy.2]

/-- `_try_binary_const_var`: `f(c, y)` or `f(x, c)`. -/
def try_binary_const_var (target f : Connective) (const_val : Nat)
    (left_const : Bool) : Bool :=
  binRows.all fun xy =>
    let fr := if left_const then f.evaluate [const_val, xy.2]
              else f.evaluate [xy.1, const_val]
    fr == target.evaluate [xy.1, xy.2]

/-- `_try_binary_const_unary`: `f(c, u(x))`, `f(c, u(y))`, `f(u(x), c)`
or `f(u(y), c)`. -/
def try_binary_const_unary (target f : Connective) (const_val : Nat)
    (u : Connective) (left_const : Bool) : Bool :=
  (binRows.all fun xy =>
    let ur := u.evaluate [xy.1]
    let fr := if left_const then f.evaluate [const_val, ur]
              else f.evaluate [ur, const_val]
    fr == target.evaluate [xy.1, xy.2]) ||
  (binRows.all fun xy =>
    let ur := u.evaluate [xy.2]
    let fr := if left_const then f.evaluate [const_val, ur]
              else f.evaluate [ur, const_val]
    fr == target.evaluate [xy.1, xy.2])

/-- `_check_binary_constant_patterns`: constant-involving binary shapes. -/
def check_binary_constant_patterns (target : Connective)
    (binary_basis unary_basis nullary_basis : List Connective) : Bool :=
  binary_basis.any fun f => nullary_basis.any fun c =>
    let const_val := c.evaluate []
    ((binary_basis.map some ++ [none]).any fun g =>
      try_binary_const_binary target f const_val g true) ||
    ((binary_basis.map some ++ [none]).any fun g =>
      try_binary_const_binary target f const_val g false) ||
    try_binary_const_var target f const_val true ||
    try_binary_const_var target f const_val false ||
    (unary_basis.any fun u =>
      try_binary_const_unary target f const_val u true ||
      try_binary_const_unary target f const_val u false)

/-- `_try_binary_unary_binary_unary_binary`: `f(u(g(x,y)), v(h(x,y)))` with
`h = None` reusing `g`'s value. -/
def try_binary_unary_binary_unary_binary (target f : Connective)
    (u : Option Connective) (g : Connective) (v h : Option Connective) : Bool :=
  binRows.all fun xy =>
    let g_result := g.evaluate [xy.1, xy.2]
    let left_result := match u with | none => g_result | some uc => uc.evaluate [g_result]
    let h_result :=
      match h with
      | none => g_result
      | some hc => if hc = g then g_result else hc.evaluate [xy.1, xy.2]
    let right_result := match v with | none => h_result | some vc => vc.evaluate [h_result]
    f.evaluate [left_result, right_result] == target.evaluate [xy.1, xy.2]

/-- `_check_binary_unary_binary_patterns`. -/
def check_binary_unary_binary_patterns (target : Connective)
    (binary_basis unary_basis : List Connective) : Bool :=
  binary_basis.any fun f =>
    (unary_basis.map some ++ [none]).any fun u =>
      (unary_basis.map some ++ [none]).any fun v =>
        binary_basis.any fun g =>
          (binary_basis.map some ++ [none]).any fun h =>
            try_binary_unary_binary_unary_binary target f u g v h

/-- `_try_unary_unary_binary`: `u(v(f(x,y)))`. -/
def try_unary_unary_binary (target u v f : Connective) : Bool :=
  binRows.all fun xy =>
    u.evaluate [v.evaluate [f.evaluate [xy.1, xy.2]]] == target.evaluate [xy.1, xy.2]

/-- `_check_unary_chain_binary`. -/
def check_unary_chain_binary (target : Connective)
    (binary_basis unary_basis : List Connective) : Bool :=
  binary_basis.any fun f => unary_basis.any fun u => unary_basis.any fun v =>
    try_unary_unary_binary target u v f

/-- `_try_f_proj_composed`: `f(x, g(h1, h2))` or `f(g(h1, h2), y)`. -/
def try_f_proj_composed (target f g : Connective) (h1 h2 : Option Connective)
    (left_proj : Bool) : Bool :=
  binRows.all fun xy =>
    let h1r := match h1 with | none => xy.1 | some c => c.evaluate [xy.1, xy.2]
    let h2r := match h2 with | none => xy.2 | some c => c.evaluate [xy.1, xy.2]
    let gr := g.evaluate [h1r, h2r]
    let fr := if left_proj then f.evaluate [xy.1, gr] else f.evaluate [gr, xy.2]
    fr == target.evaluate [xy.1, xy.2]

/-- `_check_binary_compositions`: the depth-2 and depth-3 shape catalog for
binary targets. -/
def check_binary_compositions (target : Connective) (basis : List Connective)
    (max_depth : Nat) : Bool :=
  let binary_basis := basis.filter (fun b => b.arity == 2)
  let unary_basis := basis.filter (fun b => b.arity == 1)
  let nullary_basis := basis.filter (fun b => b.arity == 0)
  (decide (2 ≤ max_depth) &&
    ((binary_basis.any fun f =>
        ((binary_basis ++ unary_basis).map some ++ [none]).any fun g =>
          ((binary_basis ++ unary_basis).map some ++ [none]).any fun h =>
            try_composition_f_g_h target f g h) ||
     (unary_basis.any fun f => binary_basis.any fun g =>
        try_unary_binary_composition target f g) ||
     (binary_basis.any fun f =>
        (unary_basis.map some ++ [none]).any fun g =>
          (unary_basis.map some ++ [none]).any fun h =>
            try_binary_unary_unary_composition target f g h) ||
     (!nullary_basis.isEmpty &&
        check_binary_constant_patterns target binary_basis unary_basis nullary_basis))) ||
  (decide (3 ≤ max_depth) &&
    ((unary_basis.any fun f => binary_basis.any fun g =>
        (unary_basis.map some ++ [none]).any fun h =>
          (unary_basis.map some ++ [none]).any fun i =>
            try_unary_binary_unary_unary_composition target f g h i) ||
     check_binary_unary_binary_patterns target binary_basis unary_basis ||
     check_unary_chain_binary target binary_basis unary_basis ||
     (binary_basis.any fun f => binary_basis.any fun g =>
        (binary_basis.map some ++ [none]).any fun h1 =>
          (binary_basis.map some ++ [none]).any fun h2 =>
            try_f_proj_composed target f g h1 h2 true ||
            try_f_proj_composed target f g h1 h2 false)))

/-- `_try_unary_ternary_composition`: `f(g(x,y,z))`. -/
def try_unary_ternary_composition (target f g : Connective) : Bool :=
  ternRows.all fun xyz =>
    f.evaluate [g.evaluate [xyz.1, xyz.2.1, xyz.2.2]] ==
      target.evaluate [xyz.1, xyz.2.1, xyz.2.2]

/-- `_try_ternary_unary_unary_unary`: `f(u(x), v(y), w(z))`. -/
def try_ternary_unary_unary_unary (target f : Connective)
    (u v w : Option Connective) : Bool :=
  ternRows.all fun xyz =>
    let ur := match u with | none => xyz.1 | some uc => uc.evaluate [xyz.1]
    let vr := match v with | none => xyz.2.1 | some vc => vc.evaluate [xyz.2.1]
    let wr := match w with | none => xyz.2.2 | some wc => wc.evaluate [xyz.2.2]
    f.evaluate [ur, vr, wr] == target.evaluate [xyz.1, xyz.2.1, xyz.2.2]

/-- `_check_ternary_compositions`. -/
def check_ternary_compositions (target : Connective) (basis : List Connective)
    (max_depth : Nat) : Bool :=
  let ternary_basis := basis.filter (fun b => b.arity == 3)
  let binary_basis := basis.filter (fun b => b.arity == 2)
  let unary_basis := basis.filter (fun b => b.arity == 1)
  let _ := binary_basis
  decide (2 ≤ max_depth) &&
    ((unary_basis.any fun f => ternary_basis.any fun g =>
        try_unary_ternary_composition target f g) ||
     (ternary_basis.any fun f =>
        (unary_basis.map some ++ [none]).any fun u =>
          (unary_basis.map some ++ [none]).any fun v =>
            (unary_basis.map some ++ [none]).any fun w =>
              try_ternary_unary_unary_unary target f u v w))

/-- `_check_composition_enumeration`: dispatch on the target's arity, with a
conservative `False` for arities above 3. -/
def check_composition_enumeration (target : Connective) (basis : List Connective)
    (max_depth : Nat) : Bool :=
  if target.arity == 0 then check_constant_compositions target basis max_depth
  else if target.arity == 1 then check_unary_compositions target basis max_depth
  else if target.arity == 2 then check_binary_compositions target basis max_depth
  else if target.arity == 3 then check_ternary_compositions target basis max_depth
  else false

/-- `_is_definable_at_depth`: depth 1 uses the same-arity permutation check,
deeper depths use the shape catalog. -/
def is_definable_at_depth (target : Connective) (basis : List Connective)
    (depth timeout_ms : Nat) : Bool :=
  let _ := timeout_ms
  if depth == 1 then check_depth_one target basis
  else check_composition_enumeration target basis depth

/-- `is_definable` (pattern-enumeration backend): empty basis fails, a basis
member succeeds immediately, otherwise iterative deepening over depths
`1..max_depth`. The `mode` parameter is accepted but never consulted, exactly
as in the source. -/
def is_definable (target : Connective) (basis : List Connective)
    (max_depth timeout_ms : Nat) (mode : DefinabilityMode) : Bool :=
  let _ := mode
  if basis.isEmpty then false
  else if target ∈ basis then true
  else (List.range' 1 max_depth).any fun depth =>
    is_definable_at_depth target basis depth timeout_ms

/-- `is_independent`: sets of size at most one are independent; otherwise no
element may be definable from the list of all the others. -/
def is_independent (connectives : List Connective)
    (max_depth timeout_ms : Nat) (mode : DefinabilityMode) : Bool :=
  if connectives.length ≤ 1 then true
  else !(connectives.enum.any fun it =>
    is_definable it.2 (connectives.take it.1 ++ connectives.drop (it.1 + 1))
      max_depth timeout_ms mode)

/-- Named connectives from `src/constants.py` used by the concrete claims. -/
def CONST_FALSE : Connective := ⟨0, 0⟩

def CONST_TRUE : Connective := ⟨0, 1⟩

def IDENTITY : Connective := ⟨1, 2⟩

def NOT : Connective := ⟨1, 1⟩

def AND : Connective := ⟨2, 8⟩

def OR : Connective := ⟨2, 14⟩

def XOR : Connective := ⟨2, 6⟩

def NAND : Connective := ⟨2, 7⟩

def PROJECT_X : Connective := ⟨2, 12⟩

def CONST_FALSE_BIN : Connective := ⟨2, 0⟩

example : AND.evaluate [1, 1] = 1 := by decide

example : AND.evaluate [1, 0] = 0 := by decide

/-- An empty basis defines nothing. -/
theorem is_definable_nil (t : Connective) (d tmo : Nat) (m : DefinabilityMode) :
    is_definable t [] d tmo m = false := rfl

/-- A passing depth-one check needs a basis element. -/
theorem check_depth_one_ne_nil {t : Connective} {b : List Connective}
    (h : check_depth_one t b = true) : b.isEmpty = false := by
  rw [check_depth_one, List.any_eq_true] at h
  obtain ⟨x, hx, -⟩ := h
  cases b with
  | nil => cases hx
  | cons a l => rfl

/-- C1: The spec's mode-divergence scenario fails on the code: with the unary
first-input projection (the identity) as target and basis `[AND]`,
`is_definable` at depth 1 returns `false` in `TRUTH_FUNCTIONAL` mode just as
in `SYNTACTIC` mode, because the `mode` argument is accepted but never
consulted, so the truth-functional universal-projection rule the spec and the
repository's own tests (`test_definability_modes.py`) require is absent. -/
theorem c1_truth_functional_projection_bug :
    is_definable IDENTITY [AND] 1 5000 DefinabilityMode.TRUTH_FUNCTIONAL = false ∧
    is_definable IDENTITY [AND] 1 5000 DefinabilityMode.SYNTACTIC = false ∧
    ∀ (t : Connective) (b : List Connective) (d tmo : Nat) (m m' : DefinabilityMode),
      is_definable t b d tmo m = is_definable t b d tmo m' :=
  ⟨by decide, by decide, fun _ _ _ _ _ _ => rfl⟩

/-- C3: The cross-arity constant-equivalence rule of `TruthFunctional` mode is
absent from the code: the binary constant-false and nullary constant-false
connectives are not definable from one another in `TRUTH_FUNCTIONAL` mode
(the repository's own tests assert both directions are definable), because
`is_definable` ignores its `mode` argument. -/
theorem c3_cross_arity_constant_bug :
    is_definable CONST_FALSE_BIN [CONST_FALSE] 3 5000
      DefinabilityMode.TRUTH_FUNCTIONAL = false ∧
    is_definable CONST_FALSE [CONST_FALSE_BIN] 3 5000
      DefinabilityMode.TRUTH_FUNCTIONAL = false ∧
    ∀ (t : Connective) (b : List Connective) (d tmo : Nat) (m m' : DefinabilityMode),
      is_definable t b d tmo m = is_definable t b d tmo m' :=
  ⟨by decide, by decide, fun _ _ _ _ _ _ => rfl⟩

/-- C5: known identities of the enumeration backend: `OR` is definable from
`[NOT, AND]` at depth 3 but not at depth 1, `NAND` is definable from
`[NOT, AND]` at depth 2, and `XOR` is not definable from `[AND]` at depth 2
under either mode. -/
theorem c5_known_identities :
    is_definable OR [NOT, AND] 3 5000 DefinabilityMode.SYNTACTIC = true ∧
    is_definable OR [NOT, AND] 1 5000 DefinabilityMode.SYNTACTIC = false ∧
    is_definable NAND [NOT, AND] 2 5000 DefinabilityMode.SYNTACTIC = true ∧
    is_definable XOR [AND] 2 5000 DefinabilityMode.SYNTACTIC = false ∧
    is_definable XOR [AND] 2 5000 DefinabilityMode.TRUTH_FUNCTIONAL = false := by
  refine ⟨by decide, by decide, by decide, by decide, by decide⟩

/-- C6: definability is monotone in the depth bound: iterative deepening over
depths `1..max_depth` never loses a composition found at a smaller bound. -/
theorem c6_depth_monotone (t : Connective) (b : List Connective) (tmo : Nat)
    (m : DefinabilityMode) (d d' : Nat) (hdd : d ≤ d')
    (h : is_definable t b d tmo m = true) : is_definable t b d' tmo m = true := by
  unfold is_definable at h ⊢
  by_cases hb : b.isEmpty = true
  · simp [hb] at h
  · by_cases hm : t ∈ b
    · simp [Bool.not_eq_true] at hb
      simp [hb, hm]
    · simp only [Bool.not_eq_true] at hb
      simp only [hb, hm, if_false, if_true, Bool.false_eq_true] at h ⊢
      rw [List.any_eq_true] at h ⊢
      obtain ⟨depth, hmem, hp⟩ := h
      refine ⟨depth, ?_, hp⟩
      rw [List.mem_range'_1] at hmem ⊢
      omega

/-- C6 witness: `NAND` is definable from `[NOT, AND]` at depth 2, hence also
at depth 3. -/
theorem c6_depth_monotone_witness :
    2 ≤ 3 ∧
    is_definable NAND [NOT, AND] 2 5000 DefinabilityMode.SYNTACTIC = true ∧
    is_definable NAND [NOT, AND] 3 5000 DefinabilityMode.SYNTACTIC = true :=
  ⟨by decide, by decide,
    c6_depth_monotone NAND [NOT, AND] 5000 DefinabilityMode.SYNTACTIC 2 3
      (by decide) (by decide)⟩

/-- C7: `is_independent` is true on sets of size at most one, and on larger
sets it is false exactly when some element is definable from the list of all
the other elements. -/
theorem c7_independent_characterization (l : List Connective) (d tmo : Nat)
    (m : DefinabilityMode) :
    (is_independent l d tmo m = false ↔
      ∃ i, ∃ h : i < l.length,
        is_definable (l.get ⟨i, h⟩) (l.take i ++ l.drop (i + 1)) d tmo m = true) ∧
    (l.length ≤ 1 → is_independent l d tmo m = true) := by
  constructor
  · by_cases hl : l.length ≤ 1
    · simp only [is_independent, hl, if_pos, if_true]
      constructor
      · intro h; cases h
      · rintro ⟨i, hi, hdef⟩
        cases l with
        | nil => exact absurd hi (by simp)
        | cons a l' =>
          cases l' with
          | nil =>
            simp only [List.length_cons, List.length_nil] at hi
            obtain rfl : i = 0 := by omega
            simp [is_definable] at hdef
          | cons a' l'' =>
            simp only [List.length_cons] at hl
            omega
    · simp only [is_independent, hl, if_neg, if_false, Bool.not_eq_false',
        List.any_eq_true]
      rw [List.exists_mem_enum]
      constructor
      · rintro ⟨i, hi, hp⟩
        exact ⟨i, hi, hp⟩
      · rintro ⟨i, hi, hp⟩
        exact ⟨i, hi, hp⟩
  · intro hl
    simp [is_independent, hl]

/-- C7 witness: the singleton `[AND]` is independent, via the size-one clause
of the characterization. -/
theorem c7_independent_characterization_witness :
    is_independent [AND] 3 5000 DefinabilityMode.SYNTACTIC = true :=
  (c7_independent_characterization [AND] 3 5000 DefinabilityMode.SYNTACTIC).2
    (by decide)

/-- C10: for targets of arity 4 or 5 the enumeration backend succeeds only via
basis membership or the depth-one same-arity permutation match; the
composition-enumeration catalog returns `false` unconditionally for these
arities. -/
theorem c10_high_arity_characterization (t : Connective) (b : List Connective)
    (d tmo d2 : Nat) (m : DefinabilityMode) (h : t.arity = 4 ∨ t.arity = 5) :
    (is_definable t b d tmo m = true ↔
      (t ∈ b ∨ (1 ≤ d ∧ check_depth_one t b = true))) ∧
    check_composition_enumeration t b d2 = false := by
  have hce : ∀ d3, check_composition_enumeration t b d3 = false := by
    intro d3
    rcases h with h | h <;> simp [check_composition_enumeration, h]
  refine ⟨?_, hce d2⟩
  unfold is_definable
  by_cases hb : b.isEmpty = true
  · have hnil : b = [] := by cases b with | nil => rfl | cons a l => cases hb
    subst hnil
    simp only [List.isEmpty_nil, if_true]
    constructor
    · intro hfalse; cases hfalse
    · rintro (hmem | ⟨-, hdep⟩)
      · cases hmem
      · rw [check_depth_one] at hdep
        simp at hdep
  · simp only [Bool.not_eq_true] at hb
    simp only [hb, Bool.false_eq_true, if_false]
    by_cases hm : t ∈ b
    · simp [hm]
    · simp only [hm, if_false, List.any_eq_true]
      constructor
      · rintro ⟨depth, hmem, hp⟩
        rw [List.mem_range'_1] at hmem
        rw [is_definable_at_depth] at hp
        by_cases hd1 : depth == 1
        · rw [if_pos hd1] at hp
          refine Or.inr ⟨?_, hp⟩
          omega
        · rw [if_neg hd1] at hp
          rw [hce depth] at hp
          cases hp
      · rintro (hmem | ⟨hd, hdep⟩)
        · cases hmem
        · refine ⟨1, ?_, ?_⟩
          · rw [List.mem_range'_1]; omega
          · rw [is_definable_at_depth]
            simp [hdep]

/-- C10 witness: a 4-ary constant-false target in its own basis. -/
theorem c10_high_arity_characterization_witness :
    (is_definable ⟨4, 0⟩ [⟨4, 0⟩] 3 5000 DefinabilityMode.SYNTACTIC = true ↔
      ((⟨4, 0⟩ : Connective) ∈ [(⟨4, 0⟩ : Connective)] ∨
        (1 ≤ 3 ∧ check_depth_one ⟨4, 0⟩ [⟨4, 0⟩] = true))) ∧
    check_composition_enumeration ⟨4, 0⟩ [⟨4, 0⟩] 7 = false :=
  c10_high_arity_characterization ⟨4, 0⟩ [⟨4, 0⟩] 3 5000 7
    DefinabilityMode.SYNTACTIC (Or.inl rfl)

/-! ### SAT composition-tree backend (`src/independence_z3.py`)

The external Z3 solver is abstracted: a `Z3Model` records the values the
solver assigned to the choice and output Boolean variables, and an oracle
`Nat → SolverResult` yields, for each depth, the outcome of `solver.check()`
(`sat` with a model, `unsat`, `unknown`, or a raised exception). Everything
else — tree structure, constraint semantics, witness extraction,
verification, and the iterative-deepening control flow with its
`except Exception: continue` handler — is translated from the source. -/

/-- A composition-tree witness (class `CompositionTree`): a connective, up to
three optional children, and an optional leaf variable index. -/
inductive CompositionTree where
  | mk (function : Connective)
       (left_child right_child middle_child : Option CompositionTree)
       (var_index : Option Nat)

/-- `CompositionTree.evaluate`, with `none` signalling the `IndexError` or
`ValueError` the Python method would raise (index out of range, unsupported
arity). -/
def CompositionTree.evaluate : CompositionTree → List Nat → Option Nat
  | CompositionTree.mk f l r mdl vi, inputs =>
    match vi with
    | some idx => inputs.get? idx
    | none =>
      if f.arity == 0 then some (f.evaluate [])
      else if f.arity == 1 then
        match l with
        | none => inputs.get? 0
        | some lc => do
            let cr ← lc.evaluate inputs
            pure (f.evaluate [cr])
      else if f.arity == 2 then do
        let lr ← match l with
          | none => inputs.get? 0
          | some lc => lc.evaluate inputs
        let rr ← match r with
          | none => if inputs.length > 1 then inputs.get? 1 else inputs.get? 0
          | some rc => rc.evaluate inputs
        pure (f.evaluate [lr, rr])
      else if f.arity == 3 then do
        let lr ← match l with
          | none => inputs.get? 0
          | some lc => lc.evaluate inputs
        let mr ← match mdl with
          | none => inputs.get? 1
          | some mc => mc.evaluate inputs
        let rr ← match r with
          | none => inputs.get? 2
          | some rc => rc.evaluate inputs
        pure (f.evaluate [lr, mr, rr])
      else none

/-- `_build_tree_structure`: a complete binary tree of the given depth has
`2 ^ depth - 1` nodes. -/
def numNodes (depth : Nat) : Nat := 2 ^ depth - 1

/-- Children of node `i`: `2 i + 1` and `2 i + 2` when inside the tree. -/
def childrenOf (nn i : Nat) : List Nat :=
  (if 2 * i + 1 < nn then [2 * i + 1] else []) ++
  (if 2 * i + 2 < nn then [2 * i + 2] else [])

/-- Leaves: nodes without children, in ascending order. -/
def leavesOf (nn : Nat) : List Nat :=
  (List.range nn).filter fun i => (childrenOf nn i).isEmpty

/-- Walk to the root counting steps; the fuel argument only forces structural
termination and never runs out, since a node's parent `(i - 1) / 2` has a
smaller index. -/
def depthOfAux : Nat → Nat → Nat
  | _, 0 => 0
  | 0, _ + 1 => 0
  | fuel + 1, i + 1 => depthOfAux fuel (i / 2) + 1

/-- Depth of a node (`depth_of`): node `0` is the root, each child is one
deeper than its parent `(i - 1) / 2`. -/
def depthOf (i : Nat) : Nat := depthOfAux i i

/-- The node outputs and function choices the solver assigned: `choice n f`
is the value of `choice_n_f`, `output n row` the value of `out_n_row`. -/
structure Z3Model where
  choice : Nat → Nat → Bool
  output : Nat → Nat → Bool

/-- An outcome of `solver.check()` at one depth: satisfiable with a model,
unsatisfiable, unknown (timeout), or a raised exception. -/
inductive SolverResult where
  | sat (model : Z3Model)
  | unsat
  | unknown
  | failure

/-- `_encode_tree_choices`: exactly one choice variable per node is true
(the `PbEq` cardinality constraint). -/
def choicesSatisfied (basis : List Connective) (nn : Nat) (m : Z3Model) : Bool :=
  (List.range nn).all fun node =>
    (List.range basis.length).countP (fun fi => m.choice node fi) == 1

/-- The input bit a leaf is pinned to in `_encode_tree_structure`: leaves are
assigned round-robin to the target's inputs. -/
def leafValue (numInputs leaf_idx row : Nat) : Nat :=
  if numInputs == 0 then 0
  else if numInputs == 1 then (rowInputs numInputs row).getD 0 0
  else (rowInputs numInputs row).getD (leaf_idx % numInputs) 0

/-- Leaf constraints of `_encode_tree_structure`: each leaf's output on each
row equals its input bit. -/
def leavesSatisfied (target : Connective) (nn : Nat) (m : Z3Model) : Bool :=
  (leavesOf nn).all fun leaf =>
    (List.range (2 ^ target.arity)).all fun row =>
      m.output leaf row == (leafValue target.arity ((leavesOf nn).indexOf leaf) row == 1)

/-- Internal-node constraints of `_encode_tree_structure`: if a function is
chosen at a node and the children output given values, the node outputs the
function's value on them; constants pin the output directly. -/
def internalSatisfied (basis : List Connective) (target : Connective)
    (nn : Nat) (m : Z3Model) : Bool :=
  (List.range nn).all fun node =>
    if (childrenOf nn node).isEmpty then true
    else
      (List.range basis.length).all fun fi =>
        match basis.get? fi with
        | none => true
        | some func =>
          (List.range (2 ^ target.arity)).all fun row =>
            if func.arity == 0 then
              !(m.choice node fi) || (m.output node row == (func.evaluate [] == 1))
            else if func.arity == 1 && decide (1 ≤ (childrenOf nn node).length) then
              [0, 1].all fun cv =>
                let left := (childrenOf nn node).getD 0 0
                !(m.choice node fi && (m.output left row == (cv == 1))) ||
                  (m.output node row == (func.evaluate [cv] == 1))
            else if func.arity == 2 && decide (2 ≤ (childrenOf nn node).length) then
              [0, 1].all fun lv => [0, 1].all fun rv =>
                let left := (childrenOf nn node).getD 0 0
                let right := (childrenOf nn node).getD 1 0
                !(m.choice node fi && (m.output left row == (lv == 1)) &&
                    (m.output right row == (rv == 1))) ||
                  (m.output node row == (func.evaluate [lv, rv] == 1))
            else true

/-- `_encode_target_match`: the root's output equals the target on each row. -/
def rootSatisfied (target : Connective) (m : Z3Model) : Bool :=
  (List.range (2 ^ target.arity)).all fun row =>
    m.output 0 row == (target.evaluate (rowInputs target.arity row) == 1)

/-- The full constraint system asserted for one depth. -/
def constraintsSatisfied (target : Connective) (basis : List Connective)
    (depth : Nat) (m : Z3Model) : Bool :=
  choicesSatisfied basis (numNodes depth) m &&
  leavesSatisfied target (numNodes depth) m &&
  internalSatisfied basis target (numNodes depth) m &&
  rootSatisfied target m

/-- The node order of `_extract_witness_from_model`: deepest depth first,
ascending node index within a depth. -/
def nodesByDepthOrder (nn : Nat) : List Nat :=
  let maxd := ((List.range nn).map depthOf).foldl max 0
  (List.range (maxd + 1)).reverse.flatMap fun dep =>
    (List.range nn).filter fun node => depthOf node == dep

/-- Look up an already-decoded child tree (`node_trees[child]`). -/
def lookupTree (l : List (Nat × CompositionTree)) (k : Nat) :
    Except String CompositionTree :=
  match l.find? (fun p => p.1 == k) with
  | some p => Except.ok p.2
  | none => Except.error "missing child tree"

/-- One step of `_extract_witness_from_model`: decode the function chosen at
a node and attach the already-decoded children. -/
def extractNode (basis : List Connective) (m : Z3Model) (nn numInputs : Nat)
    (acc : List (Nat × CompositionTree)) (node : Nat) :
    Except String (List (Nat × CompositionTree)) := do
  let selected ←
    match (List.range basis.length).find? (fun fi => m.choice node fi) with
    | none => Except.error "No function selected"
    | some fi =>
      match basis.get? fi with
      | none => Except.error "function index out of range"
      | some f => Except.ok f
  let node_children := childrenOf nn node
  if node_children.isEmpty then
    if 0 < numInputs then
      let leaf_idx := (leavesOf nn).indexOf node
      Except.ok ((node, CompositionTree.mk selected none none none
        (some (leaf_idx % numInputs))) :: acc)
    else
      Except.ok ((node, CompositionTree.mk selected none none none none) :: acc)
  else if selected.arity == 1 && decide (1 ≤ node_children.length) then do
    let lt ← lookupTree acc (node_children.getD 0 0)
    Except.ok ((node, CompositionTree.mk selected (some lt) none none none) :: acc)
  else if selected.arity == 2 && decide (2 ≤ node_children.length) then do
    let lt ← lookupTree acc (node_children.getD 0 0)
    let rt ← lookupTree acc (node_children.getD 1 0)
    Except.ok ((node, CompositionTree.mk selected (some lt) (some rt) none none) :: acc)
  else if selected.arity == 0 then
    Except.ok ((node, CompositionTree.mk selected none none none none) :: acc)
  else
    Except.error "Unsupported arity"

/-- `_extract_witness_from_model`: decode every node deepest-first and return
the root's tree; any failure is a raised `ValueError`. -/
def extract_witness_from_model (m : Z3Model) (basis : List Connective)
    (depth numInputs : Nat) : Except String CompositionTree := do
  let trees ← (nodesByDepthOrder (numNodes depth)).foldlM
    (fun acc node => extractNode basis m (numNodes depth) numInputs acc node) []
  lookupTree trees 0

/-- The row loop of `_verify_witness`: an evaluation error or a mismatching
row raises, otherwise the scan continues. -/
def verifyRows (w : CompositionTree) (target : Connective) :
    List Nat → Except String Bool
  | [] => Except.ok true
  | row :: rest =>
    match w.evaluate (rowInputs target.arity row) with
    | none => Except.error "witness evaluation raised"
    | some v =>
      if v != target.evaluate (rowInputs target.arity row) then
        Except.error "Witness failed for input"
      else verifyRows w target rest

/-- `_verify_witness`: check the witness against the target on every row. -/
def verify_witness (w : CompositionTree) (target : Connective) :
    Except String Bool :=
  verifyRows w target (List.range (2 ^ target.arity))

/-- The body of the `try` block of `is_definable_z3_sat` at one depth: on
`sat`, extract and verify the witness (either step may raise); `unsat` and
`unknown` produce no witness; a solver exception raises. -/
def try_depth (target : Connective) (basis : List Connective) (depth : Nat)
    (res : SolverResult) : Except String (Option CompositionTree) :=
  match res with
  | SolverResult.sat m => do
      let w ← extract_witness_from_model m basis depth target.arity
      let _ ← verify_witness w target
      Except.ok (some w)
  | SolverResult.unsat => Except.ok none
  | SolverResult.unknown => Except.ok none
  | SolverResult.failure => Except.error "Z3 error"

/-- The iterative-deepening loop of `is_definable_z3_sat`: first witness
wins; a depth that produces nothing — or whose body raises, via the
`except Exception: continue` handler — is skipped. -/
def z3_loop (target : Connective) (basis : List Connective)
    (oracle : Nat → SolverResult) : List Nat → Bool × Option CompositionTree
  | [] => (false, none)
  | depth :: rest =>
    match try_depth target basis depth (oracle depth) with
    | Except.ok (some w) => (true, some w)
    | Except.ok none => z3_loop target basis oracle rest
    | Except.error _ => z3_loop target basis oracle rest

/-- `is_definable_z3_sat`: try depths `1..max_depth` against the solver
oracle; `(false, none)` when no depth yields a verified witness. The
`timeout_ms` argument of the source only configures the solver, so it is
absorbed into the oracle. -/
def is_definable_z3_sat (target : Connective) (basis : List Connective)
    (max_depth : Nat) (oracle : Nat → SolverResult) :
    Bool × Option CompositionTree :=
  z3_loop target basis oracle (List.range' 1 max_depth)

/-- Whether an optional extracted witness is a leaf pinned to input
variable 0 (whatever basis function the solver chose for it). -/
def isVarZeroLeaf : Option CompositionTree → Bool
  | some (CompositionTree.mk _ none none none (some 0)) => true
  | _ => false

/-- The model a correct solver returns for the depth-1 system when the target
is the projection onto its first input: any basis function at the single
node, node outputs copying the target column. -/
def demoModel : Z3Model :=
  ⟨fun _ fi => fi == 0, fun _ row => (row &&& 1) == 1⟩

/-- An oracle answering `sat` with `demoModel` at every depth. -/
def demoOracle : Nat → SolverResult := fun _ => SolverResult.sat demoModel

example : is_definable_z3_sat IDENTITY [AND] 1 demoOracle =
    (true, some (CompositionTree.mk AND none none none (some 0))) := rfl

example : try_depth NOT [AND] 1 (SolverResult.sat demoModel) =
    Except.error "Witness failed for input" := rfl

example : is_definable_z3_sat NOT [AND] 1 demoOracle = (false, none) := rfl

/-- The depth loop yields `(false, none)` when no depth produces a verified
witness, whether a depth returned nothing or its body raised. -/
theorem z3_loop_of_no_success (t : Connective) (b : List Connective)
    (oracle : Nat → SolverResult) (ds : List Nat)
    (h : ∀ d ∈ ds, ∀ w, try_depth t b d (oracle d) ≠ Except.ok (some w)) :
    z3_loop t b oracle ds = (false, none) := by
  induction ds with
  | nil => rfl
  | cons d rest ih =>
    have hrest : ∀ d' ∈ rest, ∀ w,
        try_depth t b d' (oracle d') ≠ Except.ok (some w) :=
      fun d' hd' w => h d' (List.mem_cons_of_mem d hd') w
    rcases htd : try_depth t b d (oracle d) with e | o
    · simp only [z3_loop, htd]
      exact ih hrest
    · cases o with
      | none =>
        simp only [z3_loop, htd]
        exact ih hrest
      | some w => exact absurd htd (h d (List.mem_cons_self d rest) w)

/-- A `(true, some w)` loop result comes from some depth whose body returned
`Except.ok (some w)`. -/
theorem z3_loop_ok (t : Connective) (b : List Connective)
    (oracle : Nat → SolverResult) (ds : List Nat) (w : CompositionTree)
    (h : z3_loop t b oracle ds = (true, some w)) :
    ∃ d ∈ ds, try_depth t b d (oracle d) = Except.ok (some w) := by
  induction ds with
  | nil => simp [z3_loop] at h
  | cons d rest ih =>
    rcases htd : try_depth t b d (oracle d) with e | o
    · simp only [z3_loop, htd] at h
      obtain ⟨d', hd', hw⟩ := ih h
      exact ⟨d', List.mem_cons_of_mem d hd', hw⟩
    · cases o with
      | none =>
        simp only [z3_loop, htd] at h
        obtain ⟨d', hd', hw⟩ := ih h
        exact ⟨d', List.mem_cons_of_mem d hd', hw⟩
      | some w' =>
        simp only [z3_loop, htd, Prod.mk.injEq, Option.some.injEq, true_and] at h
        subst h
        exact ⟨d, List.mem_cons_self d rest, htd⟩

/-- A successful depth body has run the witness through `verify_witness`. -/
theorem try_depth_ok_some (t : Connective) (b : List Connective) (d : Nat)
    (res : SolverResult) (w : CompositionTree)
    (h : try_depth t b d res = Except.ok (some w)) :
    ∃ v, verify_witness w t = Except.ok v := by
  cases res with
  | sat m =>
    simp only [try_depth] at h
    rcases hex : extract_witness_from_model m b d t.arity with e | w'
    · rw [hex] at h
      simp only [Except.bind, Bind.bind] at h
      cases h
    · rw [hex] at h
      simp only [Except.bind, Bind.bind] at h
      rcases hv : verify_witness w' t with e | v
      · rw [hv] at h
        cases h
      · rw [hv] at h
        simp only [Except.ok.injEq, Option.some.injEq] at h
        subst h
        exact ⟨v, hv⟩
  | unsat => simp [try_depth] at h
  | unknown => simp [try_depth] at h
  | failure => simp [try_depth] at h

/-- A row scan that terminated without raising has matched every row. -/
theorem verifyRows_sound (w : CompositionTree) (t : Connective)
    (rows : List Nat) (v : Bool) (h : verifyRows w t rows = Except.ok v) :
    ∀ row ∈ rows,
      w.evaluate (rowInputs t.arity row) =
        some (t.evaluate (rowInputs t.arity row)) := by
  induction rows with
  | nil => intro row hrow; cases hrow
  | cons r rest ih =>
    intro row hrow
    rw [verifyRows] at h
    rcases hev : w.evaluate (rowInputs t.arity r) with - | x
    · rw [hev] at h; cases h
    · rw [hev] at h
      simp only at h
      by_cases hx : (x != t.evaluate (rowInputs t.arity r)) = true
      · rw [if_pos hx] at h; cases h
      · rw [if_neg hx] at h
        rcases List.mem_cons.mp hrow with heq | hmem
        · subst heq
          rw [hev]
          simp only [bne_iff_ne, ne_eq, not_not] at hx
          rw [hx]
        · exact ih h row hmem

/-- A row scan over rows that all match terminates with `Except.ok true`. -/
theorem verifyRows_of_all (w : CompositionTree) (t : Connective)
    (rows : List Nat)
    (h : ∀ row ∈ rows,
      w.evaluate (rowInputs t.arity row) =
        some (t.evaluate (rowInputs t.arity row))) :
    verifyRows w t rows = Except.ok true := by
  induction rows with
  | nil => rfl
  | cons r rest ih =>
    rw [verifyRows, h r (List.mem_cons_self r rest)]
    simp only [bne_self_eq_false, if_false, Bool.false_eq_true, ite_false]
    exact ih fun row hrow => h row (List.mem_cons_of_mem r hrow)

/-- The head of an input row is the bit of the first (most significant)
input variable. -/
theorem rowInputs_get?_zero (a row : Nat) (ha : 1 ≤ a) :
    (rowInputs a row).get? 0 = some ((row >>> (a - 1)) &&& 1) := by
  cases a with
  | zero => omega
  | succ n =>
    rw [rowInputs, List.range_succ_eq_map]
    rfl

/-- `getD` form of `rowInputs_get?_zero`. -/
theorem rowInputs_getD_zero (a row : Nat) (ha : 1 ≤ a) :
    (rowInputs a row).getD 0 0 = (row >>> (a - 1)) &&& 1 := by
  rw [List.getD_eq_getElem?_getD, ← List.get?_eq_getElem?,
    rowInputs_get?_zero a row ha]
  rfl

/-- A predicate with positive count is found by `find?`. -/
theorem find?_of_countP_pos (l : List Nat) (p : Nat → Bool)
    (h : l.countP p ≠ 0) : ∃ x, l.find? p = some x := by
  rcases hf : l.find? p with - | x
  · rw [List.find?_eq_none] at hf
    rw [List.countP_eq_zero.mpr hf] at h
    exact absurd rfl h
  · exact ⟨x, rfl⟩

/-- Exactly one index of `range n` satisfies `fi == 0` once `n` is positive. -/
theorem countP_range_beq_zero (n : Nat) (hn : 1 ≤ n) :
    (List.range n).countP (fun fi => fi == 0) = 1 := by
  induction n with
  | zero => omega
  | succ m ih =>
    rw [List.range_succ, List.countP_append]
    cases m with
    | zero => rfl
    | succ k =>
      rw [ih (by omega)]
      rfl

/-- C2 counterexample: a depth whose extracted witness fails verification
does not abort `is_definable_z3_sat`. With target `NOT`, basis `[AND]` and a
solver model choosing `AND` at the single depth-1 node, the extracted witness
(the variable-0 leaf) fails verification — the depth body raises the
`_verify_witness` `ValueError` — yet the function returns the not-found
result `(false, none)`: the error is caught by the `except Exception`
handler, not propagated to the caller. -/
theorem c2_verify_error_swallowed_counterexample :
    try_depth NOT [AND] 1 (demoOracle 1) =
      Except.error "Witness failed for input" ∧
    is_definable_z3_sat NOT [AND] 1 demoOracle = (false, none) :=
  ⟨rfl, rfl⟩

/-- C2 (amended): when no depth's body returns a verified witness — in
particular when a depth's extracted witness fails verification and its
`ValueError` is caught at the depth-iteration boundary — `is_definable_z3_sat`
returns `(false, none)` instead of propagating the error. -/
theorem c2_verify_error_degrades (t : Connective) (b : List Connective)
    (maxd : Nat) (oracle : Nat → SolverResult)
    (h : ∀ d, 1 ≤ d → d ≤ maxd → ∀ w,
      try_depth t b d (oracle d) ≠ Except.ok (some w)) :
    is_definable_z3_sat t b maxd oracle = (false, none) := by
  apply z3_loop_of_no_success
  intro d hd w
  rw [List.mem_range'_1] at hd
  exact h d hd.1 (by omega) w

/-- C2 (amended) witness: the concrete verification-failure run of the
counterexample indeed lands in the `(false, none)` case. -/
theorem c2_verify_error_degrades_witness :
    is_definable_z3_sat NOT [AND] 1 demoOracle = (false, none) := by
  apply c2_verify_error_degrades
  intro d h1 h2 w hw
  obtain rfl : d = 1 := by omega
  rw [show try_depth NOT [AND] 1 (demoOracle 1) =
    Except.error "Witness failed for input" from rfl] at hw
  cases hw

/-- C4: witness soundness. Whenever `is_definable_z3_sat` returns
`(true, some w)`, the witness reproduces the target on every input row,
because every extracted witness passes `_verify_witness` before success is
returned. -/
theorem c4_witness_soundness (t : Connective) (b : List Connective)
    (maxd : Nat) (oracle : Nat → SolverResult) (w : CompositionTree)
    (h : is_definable_z3_sat t b maxd oracle = (true, some w)) :
    ∀ row < 2 ^ t.arity,
      w.evaluate (rowInputs t.arity row) =
        some (t.evaluate (rowInputs t.arity row)) := by
  obtain ⟨d, -, htd⟩ := z3_loop_ok t b oracle (List.range' 1 maxd) w h
  obtain ⟨v, hv⟩ := try_depth_ok_some t b d (oracle d) w htd
  intro row hrow
  exact verifyRows_sound w t (List.range (2 ^ t.arity)) v hv row
    (List.mem_range.mpr hrow)

/-- C4 witness: a concrete successful run (identity target, basis `[AND]`,
depth 1) whose returned witness matches the target on row 1. -/
theorem c4_witness_soundness_witness :
    is_definable_z3_sat IDENTITY [AND] 1 demoOracle =
      (true, some (CompositionTree.mk AND none none none (some 0))) ∧
    (CompositionTree.mk AND none none none (some 0)).evaluate (rowInputs 1 1) =
      some (IDENTITY.evaluate (rowInputs 1 1)) := by
  have h : is_definable_z3_sat IDENTITY [AND] 1 demoOracle =
      (true, some (CompositionTree.mk AND none none none (some 0))) := rfl
  exact ⟨h, c4_witness_soundness IDENTITY [AND] 1 demoOracle
    (CompositionTree.mk AND none none none (some 0)) h 1 (by decide)⟩

/-- C8: solver `unknown` (timeout) or a raised exception at a depth is
treated as no match at that depth — the loop simply moves on — and when every
depth degrades this way the predicate returns `(false, none)` rather than
propagating a solver failure. -/
theorem c8_unknown_degrades (t : Connective) (b : List Connective)
    (maxd : Nat) (oracle : Nat → SolverResult) :
    (∀ d rest,
      (oracle d = SolverResult.unknown ∨ oracle d = SolverResult.failure) →
      z3_loop t b oracle (d :: rest) = z3_loop t b oracle rest) ∧
    ((∀ d, 1 ≤ d → d ≤ maxd →
        oracle d = SolverResult.unknown ∨ oracle d = SolverResult.failure) →
      is_definable_z3_sat t b maxd oracle = (false, none)) := by
  constructor
  · intro d rest hor
    rcases hor with hor | hor <;> simp [z3_loop, try_depth, hor]
  · intro h
    apply z3_loop_of_no_success
    intro d hd w hw
    rw [List.mem_range'_1] at hd
    rcases h d hd.1 (by omega) with hor | hor <;>
      rw [hor] at hw <;> simp [try_depth] at hw

/-- C8 witness: an oracle timing out at every depth yields `(false, none)`. -/
theorem c8_unknown_degrades_witness :
    is_definable_z3_sat OR [AND] 2 (fun _ => SolverResult.unknown) =
      (false, none) :=
  (c8_unknown_degrades OR [AND] 2 (fun _ => SolverResult.unknown)).2
    (fun _ _ _ => Or.inl rfl)

/-- The leaf pin of the depth-1 node is the first input bit. -/
theorem leafValue_zero (a row : Nat) (ha : 1 ≤ a) :
    leafValue a 0 row = (row >>> (a - 1)) &&& 1 := by
  have h0 : (a == 0) = false := by simp; omega
  by_cases h1 : a = 1
  · subst h1
    rw [leafValue]
    simp only [h0, Bool.false_eq_true, if_false, beq_self_eq_true, if_true]
    exact rowInputs_getD_zero 1 row (le_refl 1)
  · have h1' : (a == 1) = false := by simp [h1]
    rw [leafValue]
    simp only [h0, h1', Bool.false_eq_true, if_false, Nat.zero_mod]
    exact rowInputs_getD_zero a row ha

/-- C9: at depth 1 the composition tree is the single node `0`, which is both
root and leaf, and its output is pinned to input variable 0 no matter which
basis function occupies it. Hence whenever the target is the projection onto
its first input and the basis is non-empty, the depth-1 constraint system is
satisfiable, and — for any solver that is sound and complete on it —
`is_definable_z3_sat` at `max_depth = 1` returns `true` together with a
witness that is a variable-0 leaf, regardless of the basis's contents. -/
theorem c9_depth_one_projection (t : Connective) (b : List Connective)
    (oracle : Nat → SolverResult) (hb : b ≠ []) (ha : 1 ≤ t.arity)
    (ht : ∀ row < 2 ^ t.arity,
      t.evaluate (rowInputs t.arity row) = (row >>> (t.arity - 1)) &&& 1)
    (hsound : ∀ m, oracle 1 = SolverResult.sat m →
      constraintsSatisfied t b 1 m = true)
    (hcomplete : (∃ m, constraintsSatisfied t b 1 m = true) →
      ∃ m, oracle 1 = SolverResult.sat m) :
    (is_definable_z3_sat t b 1 oracle).1 = true ∧
    isVarZeroLeaf (is_definable_z3_sat t b 1 oracle).2 = true := by
  have hblen : 1 ≤ b.length := List.length_pos.mpr hb
  have ha' : 0 < t.arity := ha
  -- the constraint system of depth 1 is satisfiable
  have hsat : constraintsSatisfied t b 1
      ⟨fun _ fi => fi == 0,
       fun _ row => t.evaluate (rowInputs t.arity row) == 1⟩ = true := by
    rw [constraintsSatisfied]
    simp only [Bool.and_eq_true]
    refine ⟨⟨⟨?_, ?_⟩, ?_⟩, ?_⟩
    · rw [choicesSatisfied]
      simp only [List.all_eq_true]
      intro node hnode
      rw [countP_range_beq_zero b.length hblen]
      rfl
    · rw [leavesSatisfied]
      simp only [List.all_eq_true]
      intro leaf hleaf row hrow
      have hleaf0 : leaf = 0 := by
        have : leavesOf (numNodes 1) = [0] := rfl
        rw [this] at hleaf
        simpa using hleaf
      subst hleaf0
      have hidx : (leavesOf (numNodes 1)).indexOf 0 = 0 := rfl
      rw [hidx, leafValue_zero t.arity row ha,
        ht row (List.mem_range.mp hrow)]
      exact beq_self_eq_true _
    · rfl
    · rw [rootSatisfied]
      simp only [List.all_eq_true]
      intro row hrow
      exact beq_self_eq_true _
  obtain ⟨m, hm⟩ := hcomplete ⟨_, hsat⟩
  have hms := hsound m hm
  rw [constraintsSatisfied] at hms
  simp only [Bool.and_eq_true] at hms
  obtain ⟨⟨⟨hch, -⟩, -⟩, -⟩ := hms
  -- the model selects some basis function at node 0
  rw [choicesSatisfied] at hch
  simp only [List.all_eq_true] at hch
  have hch0 : (List.range b.length).countP (fun fi => m.choice 0 fi) = 1 := by
    have := hch 0 (by simp [numNodes])
    simpa using this
  obtain ⟨fi, hfind⟩ :=
    find?_of_countP_pos (List.range b.length) (fun fi => m.choice 0 fi)
      (by rw [hch0]; omega)
  have hfi_lt : fi < b.length :=
    List.mem_range.mp (List.mem_of_find?_eq_some hfind)
  obtain ⟨f, hgetf⟩ : ∃ f, b.get? fi = some f :=
    ⟨b.get ⟨fi, hfi_lt⟩, List.get?_eq_get hfi_lt⟩
  -- extraction decodes the single node into a variable-0 leaf
  have hnode : extractNode b m (numNodes 1) t.arity [] 0 =
      Except.ok [(0, CompositionTree.mk f none none none (some 0))] := by
    rw [extractNode]
    simp only [hfind, hgetf, Except.bind, Bind.bind]
    have hchild : childrenOf (numNodes 1) 0 = [] := rfl
    have hidx : List.indexOf 0 (leavesOf (numNodes 1)) = 0 := rfl
    simp only [hchild, List.isEmpty_nil, if_true, ha', hidx, Nat.zero_mod]
  have hextract : extract_witness_from_model m b 1 t.arity =
      Except.ok (CompositionTree.mk f none none none (some 0)) := by
    rw [extract_witness_from_model]
    have horder : nodesByDepthOrder (numNodes 1) = [0] := rfl
    rw [horder]
    simp only [List.foldlM, Except.bind, Bind.bind, hnode]
    rfl
  -- the extracted leaf evaluates to the first input, which is the target
  have heval : ∀ row ∈ List.range (2 ^ t.arity),
      (CompositionTree.mk f none none none (some 0)).evaluate
          (rowInputs t.arity row) =
        some (t.evaluate (rowInputs t.arity row)) := by
    intro row hrow
    have h0 : (CompositionTree.mk f none none none (some 0)).evaluate
        (rowInputs t.arity row) = (rowInputs t.arity row).get? 0 := rfl
    rw [h0, rowInputs_get?_zero t.arity row ha,
      ht row (List.mem_range.mp hrow)]
  have hverify : verify_witness (CompositionTree.mk f none none none (some 0)) t
      = Except.ok true :=
    verifyRows_of_all _ t _ heval
  have htry : try_depth t b 1 (oracle 1) =
      Except.ok (some (CompositionTree.mk f none none none (some 0))) := by
    rw [hm]
    simp only [try_depth]
    rw [hextract]
    simp only [Except.bind, Bind.bind]
    rw [hverify]
  have hres : is_definable_z3_sat t b 1 oracle =
      (true, some (CompositionTree.mk f none none none (some 0))) := by
    have hrange : List.range' 1 1 = [1] := rfl
    rw [is_definable_z3_sat, hrange]
    simp only [z3_loop, htry]
  rw [hres]
  exact ⟨rfl, rfl⟩

/-- C9 witness: the unary identity target with basis `[AND]` and a sound and
complete oracle at depth 1. -/
theorem c9_depth_one_projection_witness :
    (is_definable_z3_sat IDENTITY [AND] 1 demoOracle).1 = true ∧
    isVarZeroLeaf (is_definable_z3_sat IDENTITY [AND] 1 demoOracle).2 = true := by
  apply c9_depth_one_projection
  · simp
  · decide
  · decide
  · intro m hm
    simp only [demoOracle] at hm
    injection hm with h
    subst h
    decide
  · intro _
    exact ⟨demoModel, rfl⟩

end Connectives
